import Mathlib

/-!
Shallow embedding of the multi-objective reservoir scheduling core of
`scheduleLAYER/schedule_manager.py` and `scheduleLAYER/strategy.py`.

Numpy float arrays are modelled as lists of rationals; numpy reductions
(max, min, sum, mean, argmin, countP) are modelled by the list functions
below.  Fallible code (a `raise`) is modelled with `Except`; Python `None`
with `Option`.  The external pymoo optimizer call (`minimize`) is modelled
as an oracle parameter so that the surrounding repository code can be
verified for every possible optimizer outcome.
-/

/-- Model of numpy `np.max` on a nonempty 1-d array (junk value 0 on the
empty array, on which numpy raises; theorems assume nonemptiness). -/
def listMax : List ℚ → ℚ
  | [] => 0
  | h :: t => t.foldl max h

/-- Model of numpy `np.min` on a nonempty 1-d array (junk value 0 on the
empty array). -/
def listMin : List ℚ → ℚ
  | [] => 0
  | h :: t => t.foldl min h

/-- Model of the parameter dictionary `params: Dict[str, Any]`: a field is
`none` when the key is absent, mirroring `params.get(key, default)`. -/
structure Params where
  population_size? : Option ℕ := none
  iterations? : Option ℕ := none
  reference_points? : Option ℕ := none
  horizon? : Option ℕ := none
  Q_min? : Option ℚ := none
  Q_max? : Option ℚ := none
  Q_allowed? : Option ℚ := none
  Q_target? : Option ℚ := none
  Q_eco? : Option ℚ := none
  head? : Option ℚ := none
deriving DecidableEq

/-- State of `_ReservoirSchedulingProblem` after `__init__`. -/
structure Problem where
  n_var : ℕ
  active_objs : List String
  Q_min : ℚ
  Q_max : ℚ
  Q_allowed : ℚ
  Q_target : ℚ
  Q_eco : ℚ
  Head : ℚ
deriving DecidableEq

/-- Embedding of `_ReservoirSchedulingProblem.__init__` (schedule_manager.py
lines 44-63): resolves the domain parameters with their dictionary defaults. -/
def mkProblem (n_var : ℕ) (active_objs : List String) (Q_min Q_max : ℚ)
    (params : Params) : Problem :=
  { n_var := n_var
    active_objs := active_objs
    Q_min := Q_min
    Q_max := Q_max
    Q_allowed := params.Q_allowed?.getD Q_max
    Q_target := params.Q_target?.getD ((Q_min + Q_max) / 2)
    Q_eco := params.Q_eco?.getD Q_min
    Head := params.head?.getD 50 }

/-- The four objective names recognised by `_evaluate`. -/
def knownObjective (obj : String) : Bool :=
  obj = "flood" || obj = "power" || obj = "supply" || obj = "ecology"

/-- One entry of the objective matrix `F`: the value computed by the branch
of `_evaluate` (schedule_manager.py lines 76-93) for objective `obj` on the
decision row `x` (junk value 0 for an unknown objective, which `evaluateF`
turns into an error before this value could be observed). -/
def objEntry (P : Problem) (x : List ℚ) (obj : String) : ℚ :=
  if obj = "flood" then listMax x / P.Q_allowed
  else if obj = "power" then -(x.map (fun q => q * P.Head)).sum
  else if obj = "supply" then
    (x.map (fun q => max (P.Q_target - q) 0)).sum / (P.Q_target * (P.n_var : ℚ))
  else if obj = "ecology" then
    ((x.countP (fun q => decide (q < P.Q_eco)) : ℕ) : ℚ) / (P.n_var : ℚ)
  else 0

/-- Embedding of `_ReservoirSchedulingProblem._evaluate` (schedule_manager.py
lines 68-95): given a batch `X` of decision rows it fills the matrix `F`
column by column, raising `ValueError` (modelled as `Except.error`) as soon
as an objective name outside the four known ones is reached. -/
def evaluateF (P : Problem) (X : List (List ℚ)) : Except String (List (List ℚ)) :=
  match P.active_objs.find? (fun obj => !knownObjective obj) with
  | some obj => .error obj
  | none => .ok (X.map (fun x => P.active_objs.map (objEntry P x)))

/-- Helper: getD of a mapped list agrees with mapping the getD inside the
length. -/
theorem getD_map_lt {α β : Type} (f : α → β) (l : List α) (k : ℕ) (d : α)
    (hk : k < l.length) : (l.map f).getD k (f d) = f (l.getD k d) := by
  rw [List.getD_eq_getElem _ _ (by simpa using hk), List.getD_eq_getElem _ _ hk]
  simp

theorem foldl_max_mem (t : List ℚ) (a : ℚ) : t.foldl max a = a ∨ t.foldl max a ∈ t := by
  induction t generalizing a with
  | nil => exact Or.inl rfl
  | cons h t ih =>
    rcases ih (max a h) with heq | hmem
    · rcases max_cases a h with ⟨hm, _⟩ | ⟨hm, _⟩
      · exact Or.inl (by simpa [hm] using heq)
      · refine Or.inr ?_
        rw [List.foldl_cons, heq, hm]
        exact List.mem_cons_self h t
    · exact Or.inr (List.mem_cons_of_mem _ hmem)

theorem le_foldl_max_init (t : List ℚ) (a : ℚ) : a ≤ t.foldl max a := by
  induction t generalizing a with
  | nil => exact le_refl a
  | cons h t ih => exact le_trans (le_max_left a h) (ih (max a h))

theorem le_foldl_max (t : List ℚ) (a : ℚ) : ∀ y ∈ t, y ≤ t.foldl max a := by
  induction t generalizing a with
  | nil => intro y hy; simp at hy
  | cons h t ih =>
    intro y hy
    rcases List.mem_cons.mp hy with rfl | hyt
    · exact le_trans (le_max_right a y) (le_foldl_max_init t (max a y))
    · exact ih (max a h) y hyt

theorem foldl_min_mem (t : List ℚ) (a : ℚ) : t.foldl min a = a ∨ t.foldl min a ∈ t := by
  induction t generalizing a with
  | nil => exact Or.inl rfl
  | cons h t ih =>
    rcases ih (min a h) with heq | hmem
    · rcases min_cases a h with ⟨hm, _⟩ | ⟨hm, _⟩
      · exact Or.inl (by simpa [hm] using heq)
      · refine Or.inr ?_
        rw [List.foldl_cons, heq, hm]
        exact List.mem_cons_self h t
    · exact Or.inr (List.mem_cons_of_mem _ hmem)

theorem foldl_min_le_init (t : List ℚ) (a : ℚ) : t.foldl min a ≤ a := by
  induction t generalizing a with
  | nil => exact le_refl a
  | cons h t ih => exact le_trans (ih (min a h)) (min_le_left a h)

theorem foldl_min_le (t : List ℚ) (a : ℚ) : ∀ y ∈ t, t.foldl min a ≤ y := by
  induction t generalizing a with
  | nil => intro y hy; simp at hy
  | cons h t ih =>
    intro y hy
    rcases List.mem_cons.mp hy with rfl | hyt
    · exact le_trans (foldl_min_le_init t (min a y)) (min_le_right a y)
    · exact ih (min a h) y hyt

theorem listMax_mem : ∀ (l : List ℚ), l ≠ [] → listMax l ∈ l
  | [], h => absurd rfl h
  | h :: t, _ => by
    rcases foldl_max_mem t h with heq | hmem
    · simp [listMax, heq]
    · exact List.mem_cons_of_mem _ (by simpa [listMax] using hmem)

theorem le_listMax : ∀ (l : List ℚ), ∀ y ∈ l, y ≤ listMax l
  | h :: t, y, hy => by
    simp only [listMax]
    rcases List.mem_cons.mp hy with rfl | hyt
    · exact le_foldl_max_init t y
    · exact le_foldl_max t h y hyt

theorem listMin_mem : ∀ (l : List ℚ), l ≠ [] → listMin l ∈ l
  | [], h => absurd rfl h
  | h :: t, _ => by
    rcases foldl_min_mem t h with heq | hmem
    · simp [listMin, heq]
    · exact List.mem_cons_of_mem _ (by simpa [listMin] using hmem)

theorem listMin_le : ∀ (l : List ℚ), ∀ y ∈ l, listMin l ≤ y
  | h :: t, y, hy => by
    simp only [listMin]
    rcases List.mem_cons.mp hy with rfl | hyt
    · exact foldl_min_le_init t y
    · exact foldl_min_le t h y hyt

/-- Model of numpy `np.argmin` running state: fold over the remaining list
with the current position and the best (index, value) pair, replacing the
best only on a strictly smaller value, so the first occurrence of the
minimum wins, as in numpy. -/
def argminAux : List ℚ → ℕ → ℕ × ℚ → ℕ × ℚ
  | [], _, best => best
  | v :: t, i, best => argminAux t (i + 1) (if v < best.2 then (i, v) else best)

/-- Model of numpy `np.argmin` on a nonempty 1-d array: the index of the
first occurrence of the minimum (junk value 0 on the empty array, on which
numpy raises). -/
def argminList : List ℚ → ℕ
  | [] => 0
  | h :: t => (argminAux t 1 (0, h)).1

theorem argminAux_spec (l : List ℚ) (i b : ℕ) (v : ℚ) :
    (argminAux l i (b, v)).2 = l.foldl min v ∧
    (((argminAux l i (b, v)).1 = b ∧ (argminAux l i (b, v)).2 = v) ∨
      ∃ k, k < l.length ∧ (argminAux l i (b, v)).1 = i + k ∧
        (argminAux l i (b, v)).2 = l.getD k 0) := by
  induction l generalizing i b v with
  | nil => exact ⟨rfl, Or.inl ⟨rfl, rfl⟩⟩
  | cons x t ih =>
    by_cases hx : x < v
    · have h := ih (i + 1) i x
      have harg : argminAux (x :: t) i (b, v) = argminAux t (i + 1) (i, x) := by
        simp [argminAux, hx]
      rw [harg]
      refine ⟨by rw [h.1, List.foldl_cons, min_eq_right (le_of_lt hx)], ?_⟩
      rcases h.2 with ⟨h1, h2⟩ | ⟨k, hk, h1, h2⟩
      · exact Or.inr ⟨0, by simp, by simpa using h1, by simpa using h2⟩
      · refine Or.inr ⟨k + 1, by simpa using hk, by omega, by simpa using h2⟩
    · have h := ih (i + 1) b v
      have harg : argminAux (x :: t) i (b, v) = argminAux t (i + 1) (b, v) := by
        simp [argminAux, hx]
      rw [harg]
      refine ⟨by rw [h.1, List.foldl_cons, min_eq_left (le_of_not_lt hx)], ?_⟩
      rcases h.2 with ⟨h1, h2⟩ | ⟨k, hk, h1, h2⟩
      · exact Or.inl ⟨h1, h2⟩
      · refine Or.inr ⟨k + 1, by simpa using hk, by omega, by simpa using h2⟩

/-- The argmin of a nonempty list is a valid index and the value there is
the minimum of the list. -/
theorem argminList_spec : ∀ (l : List ℚ), l ≠ [] →
    argminList l < l.length ∧ l.getD (argminList l) 0 = listMin l
  | [], h => absurd rfl h
  | h :: t, _ => by
    have hs := argminAux_spec t 1 0 h
    simp only [argminList, listMin]
    rcases hs.2 with ⟨h1, h2⟩ | ⟨k, hk, h1, h2⟩
    · refine ⟨by simp [h1], ?_⟩
      rw [h1]
      simp only [List.getD_cons_zero]
      exact h2.symm.trans hs.1
    · refine ⟨by rw [h1]; simp only [List.length_cons]; omega, ?_⟩
      rw [h1]
      have : (h :: t).getD (1 + k) 0 = t.getD k 0 := by
        have : 1 + k = k + 1 := by omega
        simp [this]
      rw [this, ← h2, hs.1]

theorem knownObjective_iff (obj : String) :
    knownObjective obj = true ↔ obj ∈ ["flood", "power", "supply", "ecology"] := by
  simp only [knownObjective, Bool.or_eq_true, decide_eq_true_eq, List.mem_cons,
    List.mem_singleton, List.not_mem_nil, or_false]
  tauto

/-- C1: for every batch `X` of decision vectors and every ordered list of
active objectives drawn from {flood, power, supply, ecology}, `evaluateF`
returns a matrix `F` with one row per decision vector whose entry in the
column of each active objective is, row-wise: flood = max(x)/Q_allowed,
power = -sum(x*head), supply = sum(max(Q_target-x,0))/(Q_target*horizon),
ecology = count(x < Q_eco)/horizon; and for any objective name outside that
set, evaluation raises an error instead of returning. -/
theorem C1_evaluate_objective_matrix (P : Problem) (X : List (List ℚ)) :
    ((∀ obj ∈ P.active_objs, obj ∈ ["flood", "power", "supply", "ecology"]) →
      ∃ F, evaluateF P X = .ok F ∧ F.length = X.length ∧
        ∀ r, r < X.length → ∀ c, c < P.active_objs.length →
          (F.getD r []).getD c 0 =
            (let x := X.getD r []
             let obj := P.active_objs.getD c ""
             if obj = "flood" then listMax x / P.Q_allowed
             else if obj = "power" then -(x.map (fun q => q * P.Head)).sum
             else if obj = "supply" then
               (x.map (fun q => max (P.Q_target - q) 0)).sum /
                 (P.Q_target * (P.n_var : ℚ))
             else ((x.filter (fun q => decide (q < P.Q_eco))).length : ℚ) /
               (P.n_var : ℚ))) ∧
    ((∃ obj ∈ P.active_objs, obj ∉ ["flood", "power", "supply", "ecology"]) →
      ∃ e, evaluateF P X = .error e) := by
  constructor
  · intro hknown
    have hfind : P.active_objs.find? (fun obj => !knownObjective obj) = none := by
      rw [List.find?_eq_none]
      intro obj hobj
      have hk : knownObjective obj = true := (knownObjective_iff obj).mpr (hknown obj hobj)
      simp [hk]
    refine ⟨X.map (fun x => P.active_objs.map (objEntry P x)), ?_, by simp, ?_⟩
    · simp [evaluateF, hfind]
    · intro r hr c hc
      have hF : (X.map (fun x => P.active_objs.map (objEntry P x))).getD r [] =
          P.active_objs.map (objEntry P (X.getD r [])) := by
        rw [List.getD_eq_getElem _ _ (by simpa using hr), List.getElem_map,
          List.getD_eq_getElem _ _ hr]
      rw [hF]
      have hentry : (P.active_objs.map (objEntry P (X.getD r []))).getD c 0 =
          objEntry P (X.getD r []) (P.active_objs.getD c "") := by
        rw [List.getD_eq_getElem _ _ (by simpa using hc), List.getElem_map,
          List.getD_eq_getElem _ _ hc]
      rw [hentry]
      have hmem : P.active_objs.getD c "" ∈ P.active_objs := by
        rw [List.getD_eq_getElem _ _ hc]
        exact List.getElem_mem _
      have h4 := hknown _ hmem
      simp only [List.mem_cons, List.mem_singleton, List.not_mem_nil, or_false] at h4
      rcases h4 with h | h | h | h <;>
        (rw [h]; simp [objEntry, List.countP_eq_length_filter])
  · intro h
    obtain ⟨obj, hobj, hunk⟩ := h
    have hex : (P.active_objs.find? (fun o => !knownObjective o)).isSome := by
      rw [List.find?_isSome]
      refine ⟨obj, hobj, ?_⟩
      simp only [Bool.not_eq_true', Bool.eq_false_iff, Ne, knownObjective_iff]
      exact hunk
    obtain ⟨e, he⟩ := Option.isSome_iff_exists.mp hex
    exact ⟨e, by simp [evaluateF, he]⟩

/-- Concrete problem instance used by witnesses: horizon 2, all four
objectives enabled, bounds 0 and 10, empty parameter dictionary. -/
def wProblem : Problem := mkProblem 2 ["flood", "power", "supply", "ecology"] 0 10 {}

theorem C1_evaluate_objective_matrix_witness :
    (∀ obj ∈ wProblem.active_objs, obj ∈ ["flood", "power", "supply", "ecology"]) ∧
    (∃ F, evaluateF wProblem [[(1 : ℚ), 5]] = .ok F ∧
      F.length = ([[(1 : ℚ), 5]] : List (List ℚ)).length ∧
      ∀ r, r < ([[(1 : ℚ), 5]] : List (List ℚ)).length →
        ∀ c, c < wProblem.active_objs.length →
          (F.getD r []).getD c 0 =
            (let x := ([[(1 : ℚ), 5]] : List (List ℚ)).getD r []
             let obj := wProblem.active_objs.getD c ""
             if obj = "flood" then listMax x / wProblem.Q_allowed
             else if obj = "power" then -(x.map (fun q => q * wProblem.Head)).sum
             else if obj = "supply" then
               (x.map (fun q => max (wProblem.Q_target - q) 0)).sum /
                 (wProblem.Q_target * (wProblem.n_var : ℚ))
             else ((x.filter (fun q => decide (q < wProblem.Q_eco))).length : ℚ) /
               (wProblem.n_var : ℚ))) :=
  ⟨by decide, (C1_evaluate_objective_matrix wProblem [[(1 : ℚ), 5]]).1 (by decide)⟩

/-- Division returning `none` on a zero divisor: models the fact that a
float division with a zero denominator yields a non-finite value (inf or
nan) instead of a number, without raising. -/
def qdiv? (a b : ℚ) : Option ℚ := if b = 0 then none else some (a / b)

/-- Finiteness-checked variant of `objEntry`: `some` exactly when the float
computation of the corresponding `_evaluate` branch produces a finite value
on a finite input row, `none` when an unguarded division by zero occurs. -/
def objEntryChecked (P : Problem) (x : List ℚ) (obj : String) : Option ℚ :=
  if obj = "flood" then qdiv? (listMax x) P.Q_allowed
  else if obj = "power" then some (-(x.map (fun q => q * P.Head)).sum)
  else if obj = "supply" then
    qdiv? ((x.map (fun q => max (P.Q_target - q) 0)).sum) (P.Q_target * (P.n_var : ℚ))
  else if obj = "ecology" then
    qdiv? (((x.countP (fun q => decide (q < P.Q_eco)) : ℕ) : ℚ)) ((P.n_var : ℚ))
  else none

/-- C8: the divisions inside objective evaluation are unguarded: the flood
entry is finite exactly when Q_allowed is nonzero, the supply entry is
finite exactly when Q_target is nonzero and the horizon is at least 1 (and
where finite, the checked entries agree with the unchecked evaluation); and
Q_target = 0 is reachable because its default is (Q_min + Q_max) / 2, in
which case the supply objective is a division by zero rather than an
error. -/
theorem C8_unguarded_divisions (P : Problem) (x : List ℚ) (h : ℕ)
    (objs : List String) (Qm : ℚ) (pm : Params) (hpm : pm.Q_target? = none) :
    ((objEntryChecked P x "flood").isSome ↔ P.Q_allowed ≠ 0) ∧
    ((objEntryChecked P x "supply").isSome ↔ (P.Q_target ≠ 0 ∧ P.n_var ≠ 0)) ∧
    (∀ v, objEntryChecked P x "flood" = some v → objEntry P x "flood" = v) ∧
    (∀ v, objEntryChecked P x "supply" = some v → objEntry P x "supply" = v) ∧
    ((mkProblem h objs (-Qm) Qm pm).Q_target = 0 ∧
      objEntryChecked (mkProblem h objs (-Qm) Qm pm) x "supply" = none) := by
  have htar : (mkProblem h objs (-Qm) Qm pm).Q_target = 0 := by
    simp [mkProblem, hpm]
  refine ⟨?_, ?_, ?_, ?_, htar, ?_⟩
  · by_cases hA : P.Q_allowed = 0 <;> simp [objEntryChecked, qdiv?, hA]
  · by_cases hT : P.Q_target = 0
    · simp [objEntryChecked, qdiv?, hT]
    · by_cases hn : P.n_var = 0
      · simp [objEntryChecked, qdiv?, hT, hn]
      · have hmul : P.Q_target * (P.n_var : ℚ) ≠ 0 :=
          mul_ne_zero hT (by exact_mod_cast hn)
        simp [objEntryChecked, qdiv?, hmul, hT, hn]
  · intro v hv
    simp only [objEntryChecked, qdiv?] at hv
    by_cases hA : P.Q_allowed = 0
    · simp [hA] at hv
    · simp [hA] at hv
      simp [objEntry, hv]
  · intro v hv
    simp only [objEntryChecked, qdiv?] at hv
    by_cases hT : P.Q_target * (P.n_var : ℚ) = 0
    · simp [hT] at hv
    · simp [hT] at hv
      simp [objEntry, hv]
  · simp [objEntryChecked, qdiv?, htar]

theorem C8_unguarded_divisions_witness :
    ((objEntryChecked wProblem [(1 : ℚ), 5] "flood").isSome ↔ wProblem.Q_allowed ≠ 0) ∧
    ((objEntryChecked wProblem [(1 : ℚ), 5] "supply").isSome ↔
      (wProblem.Q_target ≠ 0 ∧ wProblem.n_var ≠ 0)) ∧
    (∀ v, objEntryChecked wProblem [(1 : ℚ), 5] "flood" = some v →
      objEntry wProblem [(1 : ℚ), 5] "flood" = v) ∧
    (∀ v, objEntryChecked wProblem [(1 : ℚ), 5] "supply" = some v →
      objEntry wProblem [(1 : ℚ), 5] "supply" = v) ∧
    ((mkProblem 2 ["flood"] (-(10 : ℚ)) 10 {}).Q_target = 0 ∧
      objEntryChecked (mkProblem 2 ["flood"] (-(10 : ℚ)) 10 {}) [(1 : ℚ), 5] "supply" =
        none) :=
  C8_unguarded_divisions wProblem [(1 : ℚ), 5] 2 ["flood"] 10 {} rfl

/-- Model of numpy `np.mean`. -/
def meanQ (x : List ℚ) : ℚ := x.sum / (x.length : ℚ)

/-- Model of the square of numpy `np.std` (population variance, ddof = 0):
the mean of the squared deviations from the mean. -/
def varQ (x : List ℚ) : ℚ :=
  ((x.map (fun q => (q - meanQ x) ^ 2)).sum) / (x.length : ℚ)

/-- The `flow_statistics` sub-dictionary of `analyze_single_solution`. -/
structure FlowStatistics where
  min_flow : ℚ
  max_flow : ℚ
  mean_flow : ℚ
  std_flow : ℝ
  total_volume : ℚ

/-- The `constraint_satisfaction` sub-dictionary of
`analyze_single_solution`. -/
structure ConstraintSatisfaction where
  min_flow_violation : ℚ
  max_flow_violation : ℚ
  flood_risk : ℚ
  supply_deficit : ℚ
  ecology_violation : ℚ

/-- The `performance_metrics` sub-dictionary of `analyze_single_solution`. -/
structure PerformanceMetrics where
  power_generation : ℚ
  supply_reliability : ℚ
  ecology_satisfaction : ℚ

/-- The dictionary returned by `analyze_single_solution`. -/
structure SolutionAnalysis where
  flow_statistics : FlowStatistics
  constraint_satisfaction : ConstraintSatisfaction
  performance_metrics : PerformanceMetrics

/-- Embedding of `analyze_single_solution` (strategy.py lines 17-52).  The
arguments `f` and `active_objs` are accepted but unused, as in the source.
`np.std` is a real square root, hence the single real-valued field. -/
noncomputable def analyze_single_solution (x : List ℚ) (f : List ℚ)
    (active_objs : List String) (pm : Params) : SolutionAnalysis :=
  let Q_min := pm.Q_min?.getD 0
  let Q_max := pm.Q_max?.getD 1000
  let Q_allowed := pm.Q_allowed?.getD Q_max
  let Q_target := pm.Q_target?.getD ((Q_min + Q_max) / 2)
  let Q_eco := pm.Q_eco?.getD Q_min
  let Head := pm.head?.getD 50
  { flow_statistics :=
      { min_flow := listMin x
        max_flow := listMax x
        mean_flow := meanQ x
        std_flow := Real.sqrt ((varQ x : ℚ) : ℝ)
        total_volume := x.sum }
    constraint_satisfaction :=
      { min_flow_violation := listMin x - Q_min
        max_flow_violation := listMax x - Q_max
        flood_risk := listMax x / Q_allowed
        supply_deficit := (x.map (fun q => max (Q_target - q) 0)).sum
        ecology_violation := ((x.countP (fun q => decide (q < Q_eco)) : ℕ) : ℚ) }
    performance_metrics :=
      { power_generation := (x.map (fun q => q * Head)).sum
        supply_reliability :=
          ((x.countP (fun q => decide (Q_target ≤ q)) : ℕ) : ℚ) / (x.length : ℚ)
        ecology_satisfaction :=
          ((x.countP (fun q => decide (Q_eco ≤ q)) : ℕ) : ℚ) / (x.length : ℚ) } }

theorem varQ_nonneg (x : List ℚ) : 0 ≤ varQ x := by
  apply div_nonneg
  · apply List.sum_nonneg
    intro q hq
    obtain ⟨y, _, rfl⟩ := List.mem_map.mp hq
    exact sq_nonneg _
  · exact_mod_cast Nat.zero_le _

/-- C7: for a single decision vector x (with its unused objective vector and
parameter dictionary), the analysis consists exactly of: flow statistics
min, max, mean, std, sum of x; constraint values min(x)-Q_min, max(x)-Q_max,
max(x)/Q_allowed, sum(max(Q_target-x,0)), count(x < Q_eco); and performance
metrics sum(x*head), fraction of steps with x ≥ Q_target, fraction of steps
with x ≥ Q_eco.  The embedding is a pure function, so there are no side
effects. -/
theorem C7_analyze_single_solution_fields (x f : List ℚ) (objs : List String)
    (pm : Params) (hx : x ≠ []) :
    let A := analyze_single_solution x f objs pm
    let Q_min := pm.Q_min?.getD 0
    let Q_max := pm.Q_max?.getD 1000
    let Q_allowed := pm.Q_allowed?.getD Q_max
    let Q_target := pm.Q_target?.getD ((Q_min + Q_max) / 2)
    let Q_eco := pm.Q_eco?.getD Q_min
    let Head := pm.head?.getD 50
    (A.flow_statistics.min_flow ∈ x ∧ ∀ y ∈ x, A.flow_statistics.min_flow ≤ y) ∧
    (A.flow_statistics.max_flow ∈ x ∧ ∀ y ∈ x, y ≤ A.flow_statistics.max_flow) ∧
    A.flow_statistics.mean_flow * (x.length : ℚ) = x.sum ∧
    (0 ≤ A.flow_statistics.std_flow ∧
      A.flow_statistics.std_flow ^ 2 * ((x.length : ℚ) : ℝ) =
        (((x.map (fun q => (q - A.flow_statistics.mean_flow) ^ 2)).sum : ℚ) : ℝ)) ∧
    A.flow_statistics.total_volume = x.sum ∧
    A.constraint_satisfaction.min_flow_violation = A.flow_statistics.min_flow - Q_min ∧
    A.constraint_satisfaction.max_flow_violation = A.flow_statistics.max_flow - Q_max ∧
    A.constraint_satisfaction.flood_risk = A.flow_statistics.max_flow / Q_allowed ∧
    A.constraint_satisfaction.supply_deficit =
      (x.map (fun q => max (Q_target - q) 0)).sum ∧
    A.constraint_satisfaction.ecology_violation =
      ((x.filter (fun q => decide (q < Q_eco))).length : ℚ) ∧
    A.performance_metrics.power_generation = (x.map (fun q => q * Head)).sum ∧
    A.performance_metrics.supply_reliability * (x.length : ℚ) =
      ((x.filter (fun q => decide (Q_target ≤ q))).length : ℚ) ∧
    A.performance_metrics.ecology_satisfaction * (x.length : ℚ) =
      ((x.filter (fun q => decide (Q_eco ≤ q))).length : ℚ) := by
  intro A Q_min Q_max Q_allowed Q_target Q_eco Head
  have hlen : (x.length : ℚ) ≠ 0 := by
    simpa using hx
  refine ⟨⟨listMin_mem x hx, listMin_le x⟩, ⟨listMax_mem x hx, le_listMax x⟩,
    ?_, ⟨?_, ?_⟩, rfl, rfl, rfl, rfl, rfl, ?_, rfl, ?_, ?_⟩
  · show meanQ x * (x.length : ℚ) = x.sum
    rw [meanQ, div_mul_cancel₀ _ hlen]
  · exact Real.sqrt_nonneg _
  · show Real.sqrt ((varQ x : ℚ) : ℝ) ^ 2 * ((x.length : ℚ) : ℝ) = _
    rw [Real.sq_sqrt (by exact_mod_cast varQ_nonneg x)]
    rw [show ((varQ x : ℚ) : ℝ) * ((x.length : ℚ) : ℝ) =
      (((varQ x * (x.length : ℚ) : ℚ)) : ℝ) by push_cast; ring]
    congr 1
    exact_mod_cast (by rw [varQ, div_mul_cancel₀ _ hlen] :
      varQ x * (x.length : ℚ) = (x.map (fun q => (q - meanQ x) ^ 2)).sum)
  · show ((x.countP (fun q => decide (q < Q_eco)) : ℕ) : ℚ) = _
    rw [List.countP_eq_length_filter]
  · show ((x.countP (fun q => decide (Q_target ≤ q)) : ℕ) : ℚ) / (x.length : ℚ) *
      (x.length : ℚ) = _
    rw [div_mul_cancel₀ _ hlen, List.countP_eq_length_filter]
  · show ((x.countP (fun q => decide (Q_eco ≤ q)) : ℕ) : ℚ) / (x.length : ℚ) *
      (x.length : ℚ) = _
    rw [div_mul_cancel₀ _ hlen, List.countP_eq_length_filter]

theorem C7_analyze_single_solution_fields_witness :
    ([(1 : ℚ), 3] ≠ ([] : List ℚ)) ∧
    (let A := analyze_single_solution [(1 : ℚ), 3] [] [] {}
     let Q_min := ({} : Params).Q_min?.getD 0
     let Q_max := ({} : Params).Q_max?.getD 1000
     let Q_allowed := ({} : Params).Q_allowed?.getD Q_max
     let Q_target := ({} : Params).Q_target?.getD ((Q_min + Q_max) / 2)
     let Q_eco := ({} : Params).Q_eco?.getD Q_min
     let Head := ({} : Params).head?.getD 50
     (A.flow_statistics.min_flow ∈ [(1 : ℚ), 3] ∧
        ∀ y ∈ [(1 : ℚ), 3], A.flow_statistics.min_flow ≤ y) ∧
     (A.flow_statistics.max_flow ∈ [(1 : ℚ), 3] ∧
        ∀ y ∈ [(1 : ℚ), 3], y ≤ A.flow_statistics.max_flow) ∧
     A.flow_statistics.mean_flow * (([(1 : ℚ), 3] : List ℚ).length : ℚ) =
       ([(1 : ℚ), 3] : List ℚ).sum ∧
     (0 ≤ A.flow_statistics.std_flow ∧
       A.flow_statistics.std_flow ^ 2 * ((( ([(1 : ℚ), 3] : List ℚ).length : ℚ)) : ℝ) =
         (((([(1 : ℚ), 3] : List ℚ).map
            (fun q => (q - A.flow_statistics.mean_flow) ^ 2)).sum : ℚ) : ℝ)) ∧
     A.flow_statistics.total_volume = ([(1 : ℚ), 3] : List ℚ).sum ∧
     A.constraint_satisfaction.min_flow_violation =
       A.flow_statistics.min_flow - Q_min ∧
     A.constraint_satisfaction.max_flow_violation =
       A.flow_statistics.max_flow - Q_max ∧
     A.constraint_satisfaction.flood_risk = A.flow_statistics.max_flow / Q_allowed ∧
     A.constraint_satisfaction.supply_deficit =
       (([(1 : ℚ), 3] : List ℚ).map (fun q => max (Q_target - q) 0)).sum ∧
     A.constraint_satisfaction.ecology_violation =
       ((([(1 : ℚ), 3] : List ℚ).filter (fun q => decide (q < Q_eco))).length : ℚ) ∧
     A.performance_metrics.power_generation =
       (([(1 : ℚ), 3] : List ℚ).map (fun q => q * Head)).sum ∧
     A.performance_metrics.supply_reliability * (([(1 : ℚ), 3] : List ℚ).length : ℚ) =
       ((([(1 : ℚ), 3] : List ℚ).filter (fun q => decide (Q_target ≤ q))).length : ℚ) ∧
     A.performance_metrics.ecology_satisfaction * (([(1 : ℚ), 3] : List ℚ).length : ℚ) =
       ((([(1 : ℚ), 3] : List ℚ).filter (fun q => decide (Q_eco ≤ q))).length : ℚ)) :=
  ⟨by decide, C7_analyze_single_solution_fields [(1 : ℚ), 3] [] [] {} (by decide)⟩

/-- One recommendation dictionary produced by `recommend_strategies`. -/
structure Recommendation where
  strategy_type : String
  solution_id : ℕ
  decision_variables : List ℚ
  objective_values : List ℚ
deriving DecidableEq

/-- Column `j` of a matrix stored as a list of rows, as numpy `F[:, j]`. -/
def col (F : List (List ℚ)) (j : ℕ) : List ℚ := F.map (fun row => row.getD j 0)

/-- The canonical objective order in which `recommend_strategies` checks its
four priority blocks (strategy.py lines 64-118). -/
def canonicalObjs : List String := ["flood", "power", "supply", "ecology"]

/-- The strategy_type string of the priority block of each objective. -/
def typeName : String → String
  | "flood" => "flood_control_priority"
  | "power" => "power_generation_priority"
  | "supply" => "water_supply_priority"
  | "ecology" => "ecology_priority"
  | _ => ""

/-- One priority block of `recommend_strategies` (strategy.py lines 64-118):
look up the objective's column, take the argmin of that column over the
Pareto front, and record the 1-based solution id together with the
minimizing member's decision and objective rows. -/
def priorityRec (pareto_X pareto_F : List (List ℚ)) (active_objs : List String)
    (obj : String) : Recommendation :=
  let j := active_objs.indexOf obj
  let k := argminList (col pareto_F j)
  { strategy_type := typeName obj
    solution_id := k + 1
    decision_variables := pareto_X.getD k []
    objective_values := pareto_F.getD k [] }

/-- Column-wise maxima `np.max(pareto_F, axis=0)` with zero maxima replaced
by 1 (strategy.py lines 122-123). -/
def normMax (F : List (List ℚ)) (j : ℕ) : ℚ :=
  let v := listMax (col F j)
  if v = 0 then 1 else v

/-- The equal-weighted normalized objective sum of one Pareto row
(strategy.py lines 124-126). -/
def weightedSum (F : List (List ℚ)) (m : ℕ) (row : List ℚ) : ℚ :=
  ((List.range m).map (fun j => row.getD j 0 / normMax F j * (1 / (m : ℚ)))).sum

/-- The vector `weighted_sum` of strategy.py line 126, one entry per Pareto
row. -/
def weightedSums (F : List (List ℚ)) (m : ℕ) : List ℚ := F.map (weightedSum F m)

/-- The balanced pick `balanced_idx` of strategy.py line 127. -/
def balancedIdx (F : List (List ℚ)) (m : ℕ) : ℕ := argminList (weightedSums F m)

/-- The balanced recommendation record (strategy.py lines 128-136). -/
def balancedRec (pareto_X pareto_F : List (List ℚ)) (m : ℕ) : Recommendation :=
  let k := balancedIdx pareto_F m
  { strategy_type := "balanced_strategy"
    solution_id := k + 1
    decision_variables := pareto_X.getD k []
    objective_values := pareto_F.getD k [] }

/-- Embedding of `recommend_strategies` (strategy.py lines 55-138): the four
priority blocks run in the canonical order flood, power, supply, ecology,
each appending one recommendation when its objective is active, followed by
the balanced block when more than one objective is active and the Pareto
front is nonempty.  `reservoir_id` is accepted but unused, as in the
source. -/
def recommend_strategies (pareto_X pareto_F : List (List ℚ))
    (active_objs : List String) (reservoir_id : ℕ) : List Recommendation :=
  ((canonicalObjs.filter (fun obj => decide (obj ∈ active_objs))).map
      (priorityRec pareto_X pareto_F active_objs)) ++
  (if 1 < active_objs.length ∧ 0 < pareto_F.length then
    [balancedRec pareto_X pareto_F active_objs.length]
  else [])

theorem weightedSums_getD (F : List (List ℚ)) (m r : ℕ) (hr : r < F.length) :
    (weightedSums F m).getD r 0 = weightedSum F m (F.getD r []) := by
  rw [weightedSums, List.getD_eq_getElem _ _ (by simpa using hr), List.getElem_map,
    List.getD_eq_getElem _ _ hr]

theorem col_getD (F : List (List ℚ)) (j r : ℕ) (hr : r < F.length) :
    (col F j).getD r 0 = (F.getD r []).getD j 0 := by
  rw [col, List.getD_eq_getElem _ _ (by simpa using hr), List.getElem_map,
    List.getD_eq_getElem _ _ hr]

theorem getD_mem_of_lt (l : List ℚ) (r : ℕ) (hr : r < l.length) : l.getD r 0 ∈ l := by
  rw [List.getD_eq_getElem _ _ hr]
  exact List.getElem_mem _

theorem countP_balanced_base (X F : List (List ℚ)) (objs : List String) :
    ((canonicalObjs.filter (fun obj => decide (obj ∈ objs))).map
      (priorityRec X F objs)).countP
        (fun r => r.strategy_type = "balanced_strategy") = 0 := by
  rw [List.countP_eq_zero]
  intro r hr
  obtain ⟨obj, hobj, rfl⟩ := List.mem_map.mp hr
  have hc : obj ∈ canonicalObjs := (List.mem_filter.mp hobj).1
  fin_cases hc <;> simp [priorityRec, typeName]

/-- C4: when at least 2 objectives are active and the Pareto front is
nonempty, `recommend_strategies` emits exactly one balanced recommendation
(which is the balanced record for the argmin of the weighted-normalized
sums), and the balanced pick's equal-weighted sum of objectives normalized
by each objective's column maximum (a zero column maximum being replaced by
1) is at most the same weighted-normalized sum of every other Pareto-front
member; with fewer than 2 active objectives no balanced recommendation is
emitted. -/
theorem C4_balanced_strategy (pareto_X pareto_F : List (List ℚ))
    (active_objs : List String) (rid : ℕ) :
    (2 ≤ active_objs.length → pareto_F ≠ [] →
      ((recommend_strategies pareto_X pareto_F active_objs rid).countP
          (fun r => r.strategy_type = "balanced_strategy") = 1 ∧
        balancedRec pareto_X pareto_F active_objs.length ∈
          recommend_strategies pareto_X pareto_F active_objs rid ∧
        ∀ r, r < pareto_F.length →
          weightedSum pareto_F active_objs.length
              (pareto_F.getD (balancedIdx pareto_F active_objs.length) []) ≤
            weightedSum pareto_F active_objs.length (pareto_F.getD r []))) ∧
    (active_objs.length < 2 →
      (recommend_strategies pareto_X pareto_F active_objs rid).countP
        (fun r => r.strategy_type = "balanced_strategy") = 0) := by
  constructor
  · intro hm hF
    have hcond : 1 < active_objs.length ∧ 0 < pareto_F.length :=
      ⟨by omega, List.length_pos.mpr hF⟩
    refine ⟨?_, ?_, ?_⟩
    · rw [recommend_strategies, List.countP_append, countP_balanced_base, if_pos hcond]
      simp [balancedRec]
    · rw [recommend_strategies, if_pos hcond]
      exact List.mem_append_right _ (List.mem_singleton.mpr rfl)
    · intro r hr
      have hws : weightedSums pareto_F active_objs.length ≠ [] := by
        simp [weightedSums, hF]
      have hspec := argminList_spec _ hws
      have hlen : (weightedSums pareto_F active_objs.length).length =
          pareto_F.length := by
        simp [weightedSums]
      have hidx : balancedIdx pareto_F active_objs.length < pareto_F.length := by
        rw [balancedIdx, ← hlen]
        exact hspec.1
      rw [← weightedSums_getD _ _ _ hidx, ← weightedSums_getD _ _ _ hr]
      have hval : (weightedSums pareto_F active_objs.length).getD
          (balancedIdx pareto_F active_objs.length) 0 =
          listMin (weightedSums pareto_F active_objs.length) := hspec.2
      rw [hval]
      exact listMin_le _ _ (getD_mem_of_lt _ r (by rw [hlen]; exact hr))
  · intro hm
    rw [recommend_strategies, List.countP_append, countP_balanced_base,
      if_neg (by omega : ¬(1 < active_objs.length ∧ 0 < pareto_F.length))]
    rfl

theorem C4_balanced_strategy_witness :
    (2 ≤ (["flood", "power"] : List String).length ∧
      ([[(1 : ℚ), 2], [2, 1]] : List (List ℚ)) ≠ []) ∧
    ((recommend_strategies [[(1 : ℚ)], [2]] [[(1 : ℚ), 2], [2, 1]]
          ["flood", "power"] 1).countP
        (fun r => r.strategy_type = "balanced_strategy") = 1 ∧
      balancedRec [[(1 : ℚ)], [2]] [[(1 : ℚ), 2], [2, 1]]
          (["flood", "power"] : List String).length ∈
        recommend_strategies [[(1 : ℚ)], [2]] [[(1 : ℚ), 2], [2, 1]]
          ["flood", "power"] 1 ∧
      ∀ r, r < ([[(1 : ℚ), 2], [2, 1]] : List (List ℚ)).length →
        weightedSum [[(1 : ℚ), 2], [2, 1]] (["flood", "power"] : List String).length
            (([[(1 : ℚ), 2], [2, 1]] : List (List ℚ)).getD
              (balancedIdx [[(1 : ℚ), 2], [2, 1]]
                (["flood", "power"] : List String).length) []) ≤
          weightedSum [[(1 : ℚ), 2], [2, 1]] (["flood", "power"] : List String).length
            (([[(1 : ℚ), 2], [2, 1]] : List (List ℚ)).getD r [])) :=
  ⟨⟨by decide, by decide⟩,
    (C4_balanced_strategy [[(1 : ℚ)], [2]] [[(1 : ℚ), 2], [2, 1]]
      ["flood", "power"] 1).1 (by decide) (by decide)⟩

theorem countP_priority_base (X F : List (List ℚ)) (objs : List String)
    (obj : String) (hc : obj ∈ canonicalObjs) (ho : obj ∈ objs) :
    ((canonicalObjs.filter (fun o => decide (o ∈ objs))).map
      (priorityRec X F objs)).countP
        (fun r => r.strategy_type = typeName obj) = 1 := by
  rw [List.countP_map, List.countP_filter]
  fin_cases hc <;>
    simp [canonicalObjs, typeName, Function.comp, priorityRec, ho]

/-- C5: for every active objective, `recommend_strategies` emits exactly one
priority recommendation; it belongs to the output, carries the 1-based index,
decision vector and objective vector of a member whose value in that
objective's column is the minimum of the column over the whole Pareto
front; and the output's strategy types are the canonical order flood, power,
supply, ecology restricted to the active objectives, with the balanced
recommendation last. -/
theorem C5_priority_recommendations (pareto_X pareto_F : List (List ℚ))
    (active_objs : List String) (rid : ℕ) (hF : pareto_F ≠ []) :
    (∀ obj ∈ canonicalObjs, obj ∈ active_objs →
      ((recommend_strategies pareto_X pareto_F active_objs rid).countP
          (fun r => r.strategy_type = typeName obj) = 1 ∧
        ∃ k, k < pareto_F.length ∧
          priorityRec pareto_X pareto_F active_objs obj =
            { strategy_type := typeName obj
              solution_id := k + 1
              decision_variables := pareto_X.getD k []
              objective_values := pareto_F.getD k [] } ∧
          priorityRec pareto_X pareto_F active_objs obj ∈
            recommend_strategies pareto_X pareto_F active_objs rid ∧
          (pareto_F.getD k []).getD (active_objs.indexOf obj) 0 =
            listMin (col pareto_F (active_objs.indexOf obj)) ∧
          ∀ r, r < pareto_F.length →
            (pareto_F.getD k []).getD (active_objs.indexOf obj) 0 ≤
              (pareto_F.getD r []).getD (active_objs.indexOf obj) 0)) ∧
    ((recommend_strategies pareto_X pareto_F active_objs rid).map
        (fun r => r.strategy_type) =
      (canonicalObjs.filter (fun o => decide (o ∈ active_objs))).map typeName ++
      (if 1 < active_objs.length then ["balanced_strategy"] else [])) := by
  have hFpos : 0 < pareto_F.length := List.length_pos.mpr hF
  constructor
  · intro obj hc ho
    set j := active_objs.indexOf obj with hj
    have hcol : col pareto_F j ≠ [] := by
      simp [col, hF]
    have hclen : (col pareto_F j).length = pareto_F.length := by
      simp [col]
    have hspec := argminList_spec _ hcol
    set k := argminList (col pareto_F j) with hk
    have hklt : k < pareto_F.length := by
      rw [← hclen]
      exact hspec.1
    refine ⟨?_, k, hklt, rfl, ?_, ?_, ?_⟩
    · rw [recommend_strategies, List.countP_append,
        countP_priority_base pareto_X pareto_F active_objs obj hc ho]
      have hsuf : (if 1 < active_objs.length ∧ 0 < pareto_F.length then
          [balancedRec pareto_X pareto_F active_objs.length] else []).countP
            (fun r => r.strategy_type = typeName obj) = 0 := by
        split_ifs with hcnd
        · fin_cases hc <;> simp [balancedRec, typeName]
        · rfl
      rw [hsuf]
    · rw [recommend_strategies]
      refine List.mem_append_left _ (List.mem_map.mpr ⟨obj, ?_, rfl⟩)
      exact List.mem_filter.mpr ⟨hc, by simpa using ho⟩
    · rw [← col_getD _ _ _ hklt]
      exact hspec.2
    · intro r hr
      rw [← col_getD _ _ _ hklt, ← col_getD _ _ _ hr, hspec.2]
      exact listMin_le _ _ (getD_mem_of_lt _ r (by rw [hclen]; exact hr))
  · rw [recommend_strategies, List.map_append, List.map_map]
    congr 1
    by_cases hA : 1 < active_objs.length
    · rw [if_pos ⟨hA, hFpos⟩, if_pos hA]
      simp [balancedRec]
    · rw [if_neg (by tauto), if_neg hA]
      rfl

theorem C5_priority_recommendations_witness :
    (([[(1 : ℚ), 2], [2, 1]] : List (List ℚ)) ≠ []) ∧
    ((∀ obj ∈ canonicalObjs, obj ∈ (["flood", "power"] : List String) →
      ((recommend_strategies [[(1 : ℚ)], [2]] [[(1 : ℚ), 2], [2, 1]]
            ["flood", "power"] 1).countP
          (fun r => r.strategy_type = typeName obj) = 1 ∧
        ∃ k, k < ([[(1 : ℚ), 2], [2, 1]] : List (List ℚ)).length ∧
          priorityRec [[(1 : ℚ)], [2]] [[(1 : ℚ), 2], [2, 1]] ["flood", "power"] obj =
            { strategy_type := typeName obj
              solution_id := k + 1
              decision_variables := ([[(1 : ℚ)], [2]] : List (List ℚ)).getD k []
              objective_values := ([[(1 : ℚ), 2], [2, 1]] : List (List ℚ)).getD k [] } ∧
          priorityRec [[(1 : ℚ)], [2]] [[(1 : ℚ), 2], [2, 1]] ["flood", "power"] obj ∈
            recommend_strategies [[(1 : ℚ)], [2]] [[(1 : ℚ), 2], [2, 1]]
              ["flood", "power"] 1 ∧
          (([[(1 : ℚ), 2], [2, 1]] : List (List ℚ)).getD k []).getD
              ((["flood", "power"] : List String).indexOf obj) 0 =
            listMin (col [[(1 : ℚ), 2], [2, 1]]
              ((["flood", "power"] : List String).indexOf obj)) ∧
          ∀ r, r < ([[(1 : ℚ), 2], [2, 1]] : List (List ℚ)).length →
            (([[(1 : ℚ), 2], [2, 1]] : List (List ℚ)).getD k []).getD
                ((["flood", "power"] : List String).indexOf obj) 0 ≤
              (([[(1 : ℚ), 2], [2, 1]] : List (List ℚ)).getD r []).getD
                ((["flood", "power"] : List String).indexOf obj) 0)) ∧
    ((recommend_strategies [[(1 : ℚ)], [2]] [[(1 : ℚ), 2], [2, 1]]
          ["flood", "power"] 1).map (fun r => r.strategy_type) =
      (canonicalObjs.filter
          (fun o => decide (o ∈ (["flood", "power"] : List String)))).map typeName ++
      (if 1 < (["flood", "power"] : List String).length then ["balanced_strategy"]
       else []))) :=
  ⟨by decide, C5_priority_recommendations [[(1 : ℚ)], [2]] [[(1 : ℚ), 2], [2, 1]]
    ["flood", "power"] 1 (by decide)⟩

/-- Modelled from the spec: the reference directions used at
schedule_manager.py line 165 come from pymoo's
`get_reference_directions("das-dennis", n_obj, n_partitions)`, an external
library routine whose code is not part of this repository.  Spec section
4.1 describes it as producing all compositions of `num_partitions` into
`num_objectives` non-negative integer parts; this function enumerates those
integer compositions (first part explicit, rest recursively). -/
def compositions : ℕ → ℕ → List (List ℕ)
  | 0, _ => []
  | 1, p => [[p]]
  | m + 2, p =>
    (List.range (p + 1)).flatMap
      (fun i => (compositions (m + 1) (p - i)).map (fun c => i :: c))

/-- Modelled from the spec: each integer composition divided by
`num_partitions` gives one Das-Dennis simplex point; the full direction set
is their list.  Deterministic by construction: a pure function of
`(num_objectives, num_partitions)`. -/
def dasDennis (m p : ℕ) : List (List ℚ) :=
  (compositions m p).map (fun c => c.map (fun k : ℕ => (k : ℚ) / (p : ℚ)))

theorem compositions_sum (m : ℕ) : ∀ (p : ℕ), ∀ c ∈ compositions (m + 1) p,
    c.sum = p := by
  induction m with
  | zero =>
    intro p c hc
    simp only [compositions, List.mem_singleton] at hc
    simp [hc]
  | succ m ih =>
    intro p c hc
    simp only [compositions] at hc
    rw [List.mem_flatMap] at hc
    obtain ⟨i, hi, hc⟩ := hc
    rw [List.mem_map] at hc
    obtain ⟨c', hc', rfl⟩ := hc
    have hisum := ih (p - i) c' hc'
    have hip : i ≤ p := by
      have := List.mem_range.mp hi
      omega
    simp only [List.sum_cons, hisum]
    omega

theorem sum_shift (f : ℕ → ℕ) : ∀ (n : ℕ),
    ((List.range (n + 1)).map (fun i => f (n - i))).sum =
    ((List.range (n + 1)).map f).sum := by
  intro n
  induction n with
  | zero => simp [List.range_succ]
  | succ n ih =>
    have hl : ((List.range (n + 2)).map (fun i => f (n + 1 - i))).sum =
        f (n + 1) + ((List.range (n + 1)).map (fun i => f (n - i))).sum := by
      rw [List.range_succ_eq_map]
      simp only [List.map_cons, List.map_map, List.sum_cons, Nat.sub_zero]
      have hmm : List.map ((fun i => f (n + 1 - i)) ∘ Nat.succ) (List.range (n + 1)) =
          List.map (fun i => f (n - i)) (List.range (n + 1)) := by
        apply List.map_congr_left
        intro i _
        simp only [Function.comp_apply]
        congr 1
        omega
      rw [hmm]
    rw [hl, ih]
    conv_rhs => rw [List.range_succ]
    rw [List.map_append, List.sum_append]
    simp only [List.map_cons, List.map_nil, List.sum_cons, List.sum_nil, add_zero]
    omega

theorem hockey_stick (m : ℕ) : ∀ (p : ℕ),
    ((List.range (p + 1)).map (fun j => (j + m).choose m)).sum =
    (p + m + 1).choose (m + 1) := by
  intro p
  induction p with
  | zero => simp [List.range_succ, Nat.choose_self]
  | succ p ih =>
    rw [List.range_succ, List.map_append, List.sum_append, ih]
    simp only [List.map_cons, List.map_nil, List.sum_cons, List.sum_nil, add_zero]
    rw [show p + 1 + m + 1 = (p + m + 1) + 1 by omega,
      Nat.choose_succ_succ (p + m + 1) m,
      show p + 1 + m = p + m + 1 by omega]
    simp only [Nat.succ_eq_add_one]
    omega

theorem compositions_length (m : ℕ) : ∀ (p : ℕ),
    (compositions (m + 1) p).length = (p + m).choose m := by
  induction m with
  | zero => intro p; simp [compositions]
  | succ m ih =>
    intro p
    show (compositions (m + 2) p).length = (p + (m + 1)).choose (m + 1)
    simp only [compositions, List.length_flatMap, List.map_map]
    have hmap : (List.range (p + 1)).map
        (List.length ∘ fun i => (compositions (m + 1) (p - i)).map (fun c => i :: c)) =
        (List.range (p + 1)).map (fun i => ((p - i) + m).choose m) := by
      apply List.map_congr_left
      intro i _
      simp [ih]
    rw [hmap]
    have hshift := sum_shift (fun j => (j + m).choose m) p
    simp only at hshift
    rw [hshift, hockey_stick m p]
    rfl

theorem sum_map_div_nat (c : List ℕ) (d : ℚ) :
    (c.map (fun k : ℕ => (k : ℚ) / d)).sum = ((c.sum : ℕ) : ℚ) / d := by
  induction c with
  | nil => simp
  | cons h t ih =>
    rw [List.map_cons, List.sum_cons, ih, List.sum_cons, Nat.cast_add, add_div]

/-- C6: for every `num_partitions` p ≥ 1 and `num_objectives` m ≥ 1, the
Das-Dennis reference-direction set contains exactly C(p + m - 1, m - 1)
points and each point's coordinates sum exactly to 1 (hence within floating
tolerance); the generator is a pure function of (m, p), hence
deterministic. -/
theorem C6_reference_directions (m p : ℕ) (hm : 1 ≤ m) (hp : 1 ≤ p) :
    (dasDennis m p).length = (p + m - 1).choose (m - 1) ∧
    ∀ pt ∈ dasDennis m p, pt.sum = 1 := by
  obtain ⟨m', rfl⟩ : ∃ m', m = m' + 1 := ⟨m - 1, by omega⟩
  constructor
  · rw [dasDennis, List.length_map, compositions_length,
      show p + (m' + 1) - 1 = p + m' from by omega,
      show m' + 1 - 1 = m' from by omega]
  · intro pt hpt
    obtain ⟨c, hc, rfl⟩ := List.mem_map.mp hpt
    have hsum := compositions_sum m' p c hc
    rw [sum_map_div_nat, hsum]
    have hp0 : (p : ℚ) ≠ 0 := Nat.cast_ne_zero.mpr (by omega)
    field_simp

theorem C6_reference_directions_witness :
    (1 ≤ 3 ∧ 1 ≤ 4) ∧
    ((dasDennis 3 4).length = (4 + 3 - 1).choose (3 - 1) ∧
      ∀ pt ∈ dasDennis 3 4, pt.sum = 1) :=
  ⟨⟨by decide, by decide⟩, C6_reference_directions 3 4 (by decide) (by decide)⟩

/-- The (F, X) matrices of a returned pymoo population (`res.pop.get("F")`,
`res.pop.get("X")`). -/
structure OptResult where
  F : List (List ℚ)
  X : List (List ℚ)
deriving DecidableEq

/-- The NSGA-III algorithm configuration resolved at schedule_manager.py
lines 133-136 and used at lines 164-166: one value per optimize call. -/
structure AlgoConfig where
  pop_size : ℕ
  n_gen : ℕ
  n_partitions : ℕ
  n_obj : ℕ
deriving DecidableEq

/-- Model of the external `pymoo.optimize.minimize` call (schedule_manager.py
line 169): given the problem, the algorithm configuration and the seed it
may return a final population, or fail (`res is None`, `res.pop is None`,
or a missing F/X all collapse to `none`).  Kept abstract as an oracle so
the coordinator code is verified for every possible optimizer outcome. -/
def Oracle : Type := Problem → AlgoConfig → ℕ → Option OptResult

/-- One row of a result DataFrame: the objective values of one population
member plus the `reservoir_id` and `time_step` columns appended at
schedule_manager.py lines 176-180. -/
structure DfRow where
  objVals : List ℚ
  reservoir_id : ℕ
  time_step : ℕ
deriving DecidableEq

/-- A pandas DataFrame, modelled by its column names and its rows. -/
structure DataFrame where
  cols : List String
  rows : List DfRow
deriving DecidableEq

/-- The mutable manager state: `self.results` (schedule_manager.py line
102). -/
structure Manager where
  results : Option DataFrame
deriving DecidableEq

/-- The per-reservoir DataFrame built at schedule_manager.py lines 176-180:
one row per row of the returned population matrix `F` (the whole final
population), with the reservoir id and the row index as `time_step`. -/
def tableFor (active_objs : List String) (F : List (List ℚ)) (rid : ℕ) : DataFrame :=
  { cols := active_objs ++ ["reservoir_id", "time_step"]
    rows := F.enum.map (fun tf =>
      { objVals := tf.2, reservoir_id := rid, time_step := tf.1 }) }

/-- The active objective list computed at schedule_manager.py line 127. -/
def activeObjsOf (objectives : List (String × Bool)) : List String :=
  (objectives.filter (fun ob => ob.2)).map (fun ob => ob.1)

/-- The algorithm configuration as resolved from the parameter dictionary
(schedule_manager.py lines 133-135 and 165-166). -/
def algoOf (params : Params) (active_objs : List String) : AlgoConfig :=
  { pop_size := params.population_size?.getD 100
    n_gen := params.iterations?.getD 100
    n_partitions := params.reference_points?.getD 12
    n_obj := active_objs.length }

/-- The problem instance built inside the per-reservoir loop
(schedule_manager.py lines 156-162).  The reservoir id is in scope in the
loop body but every constructor argument is a loop invariant. -/
def problemFor (horizon : ℕ) (active_objs : List String) (Q_min Q_max : ℚ)
    (params : Params) (reservoir_id : ℕ) : Problem :=
  mkProblem horizon active_objs Q_min Q_max params

/-- One iteration of the per-reservoir loop (schedule_manager.py lines
152-193): run the optimizer with the reservoir id as seed; on success keep
the DataFrame of the returned population, on failure record nothing. -/
def reservoirResult (run : Oracle) (horizon : ℕ) (active_objs : List String)
    (Q_min Q_max : ℚ) (params : Params) (rid : ℕ) : Option DataFrame :=
  (run (problemFor horizon active_objs Q_min Q_max params rid)
      (algoOf params active_objs) rid).map
    (fun res => tableFor active_objs res.F rid)

/-- Embedding of `ScheduleManager.optimize` (schedule_manager.py lines
107-213).  `data` models the optional `data['model_results']` mapping by
its reservoir count (`none` covers every case in which the count defaults
to 1).  Returns the updated manager state together with the Python return
value. -/
def ScheduleManager.optimize (run : Oracle) (mgr : Manager) (data : Option ℕ)
    (objectives : List (String × Bool)) (params : Params) :
    Manager × Option DataFrame :=
  let active_objs := activeObjsOf objectives
  if active_objs.isEmpty then (mgr, none)
  else
    let horizon := params.horizon?.getD 24
    let Q_min := params.Q_min?.getD 0
    let Q_max := params.Q_max?.getD 1000
    let reservoir_count := data.getD 1
    let all_results := (List.range' 1 reservoir_count).filterMap
      (reservoirResult run horizon active_objs Q_min Q_max params)
    if all_results.isEmpty then (mgr, none)
    else
      let combined : DataFrame :=
        { cols := active_objs ++ ["reservoir_id", "time_step"]
          rows := (all_results.map (fun df => df.rows)).flatten }
      ({ results := some combined }, some combined)

/-- C2: optimize returns None exactly when no objective is enabled or every
reservoir's optimization fails to yield a population; and when at least one
reservoir succeeds it returns a combined result in which every successful
reservoir's rows appear — a single reservoir's failure does not abort its
siblings. -/
theorem C2_optimize_failure_signal (run : Oracle) (mgr : Manager)
    (data : Option ℕ) (objectives : List (String × Bool)) (params : Params) :
    ((ScheduleManager.optimize run mgr data objectives params).2 = none ↔
      (activeObjsOf objectives = [] ∨
        ∀ rid ∈ List.range' 1 (data.getD 1),
          reservoirResult run (params.horizon?.getD 24) (activeObjsOf objectives)
            (params.Q_min?.getD 0) (params.Q_max?.getD 1000) params rid = none)) ∧
    (activeObjsOf objectives ≠ [] →
      ∀ rid ∈ List.range' 1 (data.getD 1), ∀ t,
        reservoirResult run (params.horizon?.getD 24) (activeObjsOf objectives)
          (params.Q_min?.getD 0) (params.Q_max?.getD 1000) params rid = some t →
        ∃ df, (ScheduleManager.optimize run mgr data objectives params).2 = some df ∧
          ∀ row ∈ t.rows, row ∈ df.rows) := by
  by_cases hA : (activeObjsOf objectives).isEmpty
  · have hAe : activeObjsOf objectives = [] := List.isEmpty_iff.mp hA
    constructor
    · simp [ScheduleManager.optimize, hA, hAe]
    · intro hne
      exact absurd hAe hne
  · have hAe : activeObjsOf objectives ≠ [] := by
      simpa [List.isEmpty_iff] using hA
    by_cases hT : ((List.range' 1 (data.getD 1)).filterMap
        (reservoirResult run (params.horizon?.getD 24) (activeObjsOf objectives)
          (params.Q_min?.getD 0) (params.Q_max?.getD 1000) params)).isEmpty
    · have hTe := List.isEmpty_iff.mp hT
      rw [List.filterMap_eq_nil_iff] at hTe
      constructor
      · simp only [ScheduleManager.optimize, hA, if_false, hT, if_true]
        exact ⟨fun _ => Or.inr hTe, fun _ => rfl⟩
      · intro _ rid hrid t ht
        exact absurd ht (by simp [hTe rid hrid])
    · have hTne : ((List.range' 1 (data.getD 1)).filterMap
          (reservoirResult run (params.horizon?.getD 24) (activeObjsOf objectives)
            (params.Q_min?.getD 0) (params.Q_max?.getD 1000) params)) ≠ [] := by
        simpa [List.isEmpty_iff] using hT
      have hTex : ¬ (∀ rid ∈ List.range' 1 (data.getD 1),
          reservoirResult run (params.horizon?.getD 24) (activeObjsOf objectives)
            (params.Q_min?.getD 0) (params.Q_max?.getD 1000) params rid = none) := by
        intro hall
        exact hTne (List.filterMap_eq_nil_iff.mpr hall)
      constructor
      · simp only [ScheduleManager.optimize, hA, if_false, hT, if_false]
        constructor
        · intro h
          exact absurd h (by simp)
        · intro h
          rcases h with h | h
          · exact absurd h hAe
          · exact absurd h hTex
      · intro _ rid hrid t ht
        refine ⟨{ cols := activeObjsOf objectives ++ ["reservoir_id", "time_step"]
                  rows := (((List.range' 1 (data.getD 1)).filterMap
                    (reservoirResult run (params.horizon?.getD 24) (activeObjsOf objectives)
                      (params.Q_min?.getD 0) (params.Q_max?.getD 1000) params)).map
                        (fun df => df.rows)).flatten }, ?_, ?_⟩
        · simp only [ScheduleManager.optimize, hA, if_false, hT, if_false]
          rfl
        · intro row hrow
          simp only [List.mem_flatten]
          refine ⟨t.rows, List.mem_map.mpr ⟨t, ?_, rfl⟩, hrow⟩
          exact List.mem_filterMap.mpr ⟨rid, hrid, ht⟩

/-- C9: optimize mutates the stored results field only on success: whenever
it returns None, the manager state is unchanged. -/
theorem C9_results_untouched_on_failure (run : Oracle) (mgr : Manager)
    (data : Option ℕ) (objectives : List (String × Bool)) (params : Params)
    (hnone : (ScheduleManager.optimize run mgr data objectives params).2 = none) :
    (ScheduleManager.optimize run mgr data objectives params).1 = mgr := by
  by_cases hA : (activeObjsOf objectives).isEmpty
  · simp [ScheduleManager.optimize, hA]
  · by_cases hT : ((List.range' 1 (data.getD 1)).filterMap
        (reservoirResult run (params.horizon?.getD 24) (activeObjsOf objectives)
          (params.Q_min?.getD 0) (params.Q_max?.getD 1000) params)).isEmpty
    · simp [ScheduleManager.optimize, hA, hT]
    · exfalso
      simp only [ScheduleManager.optimize, hA, if_false, hT, if_false] at hnone
      exact Option.some_ne_none _ hnone

/-- Oracle modelling a pymoo run whose final population contains a dominated
member — a possible NSGA-III outcome, since `res.pop` is the whole final
population, not its non-dominated subset. -/
def domOracle : Oracle :=
  fun _ _ _ =>
    some { F := [[(1 : ℚ), -100], [2, -50]], X := [[5], [5]] }

/-- Oracle modelling a pymoo run that returns no population. -/
def failOracle : Oracle := fun _ _ _ => none

/-- Pareto dominance of objective row `a` over `b` (minimization): no worse
everywhere and strictly better somewhere. -/
def dominates (a b : List ℚ) : Prop :=
  (∀ k, k < a.length → a.getD k 0 ≤ b.getD k 0) ∧
  (∃ k, k < a.length ∧ a.getD k 0 < b.getD k 0)

instance (a b : List ℚ) : Decidable (dominates a b) := by
  rw [dominates]
  infer_instance

/-- C3 counterexample: the per-reservoir output table is built from the
whole final population matrix (schedule_manager.py lines 172-180), not from
its non-dominated subset, so with an optimizer run whose final population
contains a dominated member the returned table contains a dominated row —
refuting the claim that every row of the table is a Pareto-front row. -/
theorem C3_counterexample_dominated_row :
    ∃ df, (ScheduleManager.optimize domOracle { results := none } none
        [("flood", true), ("power", true)] {}).2 = some df ∧
      ∃ r, r ∈ df.rows ∧ ∃ s, s ∈ df.rows ∧ r.reservoir_id = s.reservoir_id ∧
        dominates r.objVals s.objVals := by
  refine ⟨{ cols := ["flood", "power", "reservoir_id", "time_step"]
            rows := [{ objVals := [(1 : ℚ), -100], reservoir_id := 1, time_step := 0 },
                     { objVals := [(2 : ℚ), -50], reservoir_id := 1, time_step := 1 }] },
    by decide, ?_⟩
  refine ⟨{ objVals := [(1 : ℚ), -100], reservoir_id := 1, time_step := 0 },
    by decide,
    { objVals := [(2 : ℚ), -50], reservoir_id := 1, time_step := 1 },
    by decide, rfl, by decide⟩

/-- C3 amended: every row of the table returned by optimize is a row of some
reservoir's returned final population (labelled with the reservoir id, the
population row index as time_step), with columns exactly one per active
objective plus reservoir_id and time_step; the population is not filtered
to its non-dominated subset, so rows need not be Pareto-optimal. -/
theorem C3_amended_full_population_table (run : Oracle) (mgr : Manager)
    (data : Option ℕ) (objectives : List (String × Bool)) (params : Params)
    (df : DataFrame)
    (hdf : (ScheduleManager.optimize run mgr data objectives params).2 = some df) :
    df.cols = activeObjsOf objectives ++ ["reservoir_id", "time_step"] ∧
    ∀ row ∈ df.rows, ∃ rid, rid ∈ List.range' 1 (data.getD 1) ∧ ∃ res,
      run (problemFor (params.horizon?.getD 24) (activeObjsOf objectives)
          (params.Q_min?.getD 0) (params.Q_max?.getD 1000) params rid)
        (algoOf params (activeObjsOf objectives)) rid = some res ∧
      row ∈ (tableFor (activeObjsOf objectives) res.F rid).rows ∧
      row.reservoir_id = rid := by
  by_cases hA : (activeObjsOf objectives).isEmpty
  · simp [ScheduleManager.optimize, hA] at hdf
  · by_cases hT : ((List.range' 1 (data.getD 1)).filterMap
        (reservoirResult run (params.horizon?.getD 24) (activeObjsOf objectives)
          (params.Q_min?.getD 0) (params.Q_max?.getD 1000) params)).isEmpty
    · simp [ScheduleManager.optimize, hA, hT] at hdf
    · simp only [ScheduleManager.optimize, hA, hT, Bool.false_eq_true, if_false,
        Option.some_inj] at hdf
      subst hdf
      refine ⟨rfl, ?_⟩
      intro row hrow
      simp only [List.mem_flatten] at hrow
      obtain ⟨rs, hrs, hrow⟩ := hrow
      obtain ⟨t, ht, rfl⟩ := List.mem_map.mp hrs
      obtain ⟨rid, hrid, hres⟩ := List.mem_filterMap.mp ht
      rw [reservoirResult] at hres
      obtain ⟨res, hrun, htf⟩ := Option.map_eq_some'.mp hres
      refine ⟨rid, hrid, res, hrun, ?_, ?_⟩
      · rw [htf]
        exact hrow
      · rw [← htf] at hrow
        obtain ⟨tf, _, rfl⟩ := List.mem_map.mp hrow
        rfl

/-- Relabelling of a DataFrame with a new reservoir id, used to state that
per-reservoir results can differ only through the seed and the label. -/
def relabel (rid : ℕ) (df : DataFrame) : DataFrame :=
  { cols := df.cols
    rows := df.rows.map (fun row => { row with reservoir_id := rid }) }

/-- C10: every reservoir of one optimize call is optimized against an
identical problem — the problem built for reservoir i equals the one built
for reservoir j, since horizon, active objectives, bounds and parameters
are loop invariants — and when the optimizer oracle ignores its seed
argument, the per-reservoir results are identical up to the attached
reservoir_id label, so results can differ only through the seed (the
reservoir id) and the label. -/
theorem C10_identical_problems_seed_only (horizon : ℕ)
    (active_objs : List String) (Q_min Q_max : ℚ) (params : Params)
    (run : Oracle) (i j : ℕ)
    (hrun : ∀ P a s s', run P a s = run P a s') :
    problemFor horizon active_objs Q_min Q_max params i =
      problemFor horizon active_objs Q_min Q_max params j ∧
    reservoirResult run horizon active_objs Q_min Q_max params i =
      Option.map (relabel i)
        (reservoirResult run horizon active_objs Q_min Q_max params j) := by
  refine ⟨rfl, ?_⟩
  rw [reservoirResult, reservoirResult, problemFor, problemFor,
    hrun (mkProblem horizon active_objs Q_min Q_max params)
      (algoOf params active_objs) i j]
  cases hres : run (mkProblem horizon active_objs Q_min Q_max params)
      (algoOf params active_objs) j with
  | none => rfl
  | some res =>
    simp only [Option.map_some']
    rw [tableFor, tableFor, relabel]
    simp only [List.map_map]
    rfl

theorem C2_optimize_failure_signal_witness :
    ((ScheduleManager.optimize domOracle { results := none } none
        [("flood", true), ("power", true)] {}).2 = none ↔
      (activeObjsOf [("flood", true), ("power", true)] = [] ∨
        ∀ rid ∈ List.range' 1 ((none : Option ℕ).getD 1),
          reservoirResult domOracle (({} : Params).horizon?.getD 24)
            (activeObjsOf [("flood", true), ("power", true)])
            (({} : Params).Q_min?.getD 0) (({} : Params).Q_max?.getD 1000) {} rid =
              none)) ∧
    (activeObjsOf [("flood", true), ("power", true)] ≠ [] →
      ∀ rid ∈ List.range' 1 ((none : Option ℕ).getD 1), ∀ t,
        reservoirResult domOracle (({} : Params).horizon?.getD 24)
          (activeObjsOf [("flood", true), ("power", true)])
          (({} : Params).Q_min?.getD 0) (({} : Params).Q_max?.getD 1000) {} rid =
            some t →
        ∃ df, (ScheduleManager.optimize domOracle { results := none } none
            [("flood", true), ("power", true)] {}).2 = some df ∧
          ∀ row ∈ t.rows, row ∈ df.rows) :=
  C2_optimize_failure_signal domOracle { results := none } none
    [("flood", true), ("power", true)] {}

theorem C3_amended_full_population_table_witness :
    ∃ df, (ScheduleManager.optimize domOracle { results := none } none
        [("flood", true), ("power", true)] {}).2 = some df ∧
      (df.cols = activeObjsOf [("flood", true), ("power", true)] ++
        ["reservoir_id", "time_step"] ∧
      ∀ row ∈ df.rows, ∃ rid, rid ∈ List.range' 1 ((none : Option ℕ).getD 1) ∧
        ∃ res, domOracle
            (problemFor (({} : Params).horizon?.getD 24)
              (activeObjsOf [("flood", true), ("power", true)])
              (({} : Params).Q_min?.getD 0) (({} : Params).Q_max?.getD 1000) {} rid)
            (algoOf {} (activeObjsOf [("flood", true), ("power", true)])) rid =
              some res ∧
          row ∈ (tableFor (activeObjsOf [("flood", true), ("power", true)])
            res.F rid).rows ∧
          row.reservoir_id = rid) :=
  ⟨{ cols := ["flood", "power", "reservoir_id", "time_step"]
     rows := [{ objVals := [(1 : ℚ), -100], reservoir_id := 1, time_step := 0 },
              { objVals := [(2 : ℚ), -50], reservoir_id := 1, time_step := 1 }] },
   by decide,
   C3_amended_full_population_table domOracle { results := none } none
     [("flood", true), ("power", true)] {} _ (by decide)⟩

theorem C9_results_untouched_on_failure_witness :
    (ScheduleManager.optimize failOracle
        { results := some { cols := ["flood"], rows := [] } } none
        [("flood", true)] {}).2 = none ∧
    (ScheduleManager.optimize failOracle
        { results := some { cols := ["flood"], rows := [] } } none
        [("flood", true)] {}).1 = { results := some { cols := ["flood"], rows := [] } } :=
  ⟨by decide,
    C9_results_untouched_on_failure failOracle
      { results := some { cols := ["flood"], rows := [] } } none
      [("flood", true)] {} (by decide)⟩

theorem C10_identical_problems_seed_only_witness :
    problemFor 24 ["flood"] 0 1000 {} 1 = problemFor 24 ["flood"] 0 1000 {} 2 ∧
    reservoirResult domOracle 24 ["flood"] 0 1000 {} 1 =
      Option.map (relabel 1) (reservoirResult domOracle 24 ["flood"] 0 1000 {} 2) :=
  C10_identical_problems_seed_only 24 ["flood"] 0 1000 {} domOracle 1 2
    (fun _ _ _ _ => rfl)
